import Mathlib

/-!
Verification of the deterministic core of the Smart-Home-Appliance web app
AI service layer: intent classification (`services/llm/ai_agent.py`),
LLM gateway fallback (`services/llm/gemini_service.py`), rate limiting
(`services/core/rate_limiter.py`), session history (`services/api/endpoints/chat.py`),
and quick insights (`services/llm/ai_agent.py`).

Python strings are modelled as `String`/`List Char` (ASCII model: `str.lower`
maps through `Char.toLower`, `\w` is `[A-Za-z0-9_]`, `\s`/`str.strip`
whitespace is `Char.isWhitespace`).  `datetime` values are modelled as natural
numbers counting seconds.  External collaborators (the Gemini/Cerebras
providers and `json.loads`) are modelled as oracle inputs, mirroring the
spec view of providers as a capability.
-/

namespace SmartHome

/-! ### Character and string helpers (ASCII model of Python str operations) -/

/-- Python regex word character `\w` (ASCII model). -/
def isWordChar (c : Char) : Bool := c.isAlphanum || c == '_'

/-- Python substring test `needle in haystack` over char lists. -/
def containsSeq (needle : List Char) : List Char → Bool
  | [] => needle.isEmpty
  | c :: t => needle.isPrefixOf (c :: t) || containsSeq needle t

/-- Model of Python `message.lower()` as a char list (ASCII). -/
def lowerChars (s : String) : List Char := s.data.map Char.toLower

/-- Bridge between the executable `List.isPrefixOf` and the `<+:` relation. -/
theorem prefixOf_iff (l₁ l₂ : List Char) : l₁.isPrefixOf l₂ = true ↔ l₁ <+: l₂ :=
  List.isPrefixOf_iff_prefix

/-! ### Intent classifier — `AIAgent.detect_intent` (`ai_agent.py` 113-133)

The enumeration `QuestionIntent` and the keyword table `intent_keywords`
are transcribed from `ai_agent.py` lines 17-103; `intentOrder` is the
insertion order of the `intent_keywords` dict (the enum declaration order,
without `GENERAL`, which has no keyword entry). -/

inductive QuestionIntent where
  | STATUS | ALERTS | ENERGY | COST | CONTROL | ANOMALY | COMPARISON | TREND
  | SCHEDULE | MAINTENANCE | SAFETY | OPTIMIZATION | HISTORY | FORECAST | GENERAL
deriving DecidableEq

def intent_keywords : QuestionIntent → List String
  | .STATUS => ["status", "state", "running", "on", "off", "active", "current",
      "what is", "show me", "display", "check"]
  | .ALERTS => ["alert", "warning", "alarm", "problem", "issue", "error",
      "notification", "critical", "urgent", "danger"]
  | .ENERGY => ["energy", "power", "watt", "kwh", "consumption", "usage",
      "electricity", "draw", "load"]
  | .COST => ["cost", "price", "bill", "expense", "money", "dollar",
      "save", "savings", "expensive", "cheap"]
  | .CONTROL => ["turn on", "turn off", "switch", "control", "operate",
      "start", "stop", "enable", "disable", "toggle"]
  | .ANOMALY => ["anomaly", "unusual", "abnormal", "strange", "weird",
      "unexpected", "spike", "irregular", "detect"]
  | .COMPARISON => ["compare", "versus", "vs", "difference", "which",
      "better", "worse", "more", "less", "between"]
  | .TREND => ["trend", "pattern", "over time", "increasing", "decreasing",
      "graph", "chart", "history", "change"]
  | .SCHEDULE => ["schedule", "timer", "automate", "automation", "when",
      "time", "program", "routine", "set time"]
  | .MAINTENANCE => ["maintenance", "repair", "fix", "service", "replace",
      "lifespan", "wear", "check up", "inspection"]
  | .SAFETY => ["safe", "safety", "dangerous", "hazard", "risk",
      "fire", "shock", "overload", "protection"]
  | .OPTIMIZATION => ["optimize", "efficient", "efficiency", "improve",
      "reduce", "lower", "minimize", "best", "tips"]
  | .HISTORY => ["yesterday", "last week", "last month", "previous",
      "historical", "past", "before", "ago"]
  | .FORECAST => ["predict", "forecast", "future", "expect", "will",
      "estimate", "project", "tomorrow", "next"]
  | .GENERAL => []

def intentOrder : List QuestionIntent :=
  [.STATUS, .ALERTS, .ENERGY, .COST, .CONTROL, .ANOMALY, .COMPARISON, .TREND,
   .SCHEDULE, .MAINTENANCE, .SAFETY, .OPTIMIZATION, .HISTORY, .FORECAST]

/-- True when the previous character (if any) is a non-word character.
Since every keyword starts with a word character, the regex `\b` before the
keyword holds exactly in this case. -/
def boundaryBefore : Option Char → Bool
  | none => true
  | some c => !isWordChar c

/-- True when the next character (if any) is a non-word character.
Since every keyword ends with a word character, the regex `\b` after the
keyword holds exactly in this case. -/
def boundaryAfterL : List Char → Bool
  | [] => true
  | c :: _ => !isWordChar c

/-- One attempt of the search pattern from `re.search` of a whole word at the
current position: boundary before, the keyword as a literal prefix, and a
boundary after it. -/
def wholeWordAt (kw : List Char) (prev : Option Char) (l : List Char) : Bool :=
  boundaryBefore prev && kw.isPrefixOf l && boundaryAfterL (l.drop kw.length)

/-- Model of `re.search(rf'\b{re.escape(keyword)}\b', message_lower)`:
the escaped keyword occurs somewhere in the message with word boundaries. -/
def wholeWord (kw : List Char) : Option Char → List Char → Bool
  | prev, [] => wholeWordAt kw prev []
  | prev, c :: cs => wholeWordAt kw prev (c :: cs) || wholeWord kw (some c) cs

/-- Score of one intent on the lower-cased message (`ai_agent.py` 122-124):
one point per keyword contained as a substring plus two points per keyword
matching as a whole word. -/
def intentScore (i : QuestionIntent) (ml : List Char) : Nat :=
  (intent_keywords i).countP (fun kw => containsSeq kw.data ml)
  + 2 * (intent_keywords i).countP (fun kw => wholeWord kw.data none ml)

/-- The `intent_scores` table, in dict insertion order. -/
def scoredIntents (ml : List Char) : List (QuestionIntent × Nat) :=
  intentOrder.map (fun i => (i, intentScore i ml))

/-- Model of Python `max(intent_scores, key=intent_scores.get)`: iterate left
to right and keep the current entry unless a strictly greater score appears,
so the first entry attaining the maximum wins. -/
def bestPair : List (QuestionIntent × Nat) → Option (QuestionIntent × Nat)
  | [] => none
  | p :: ps =>
    match bestPair ps with
    | none => some p
    | some q => if q.2 > p.2 then some q else some p

/-- `AIAgent.detect_intent` (`ai_agent.py` 113-133). -/
def detect_intent (msg : String) : QuestionIntent :=
  match bestPair (scoredIntents (lowerChars msg)) with
  | some p => if p.2 > 0 then p.1 else .GENERAL
  | none => .GENERAL

/-- Greatest score in the table. -/
def maxScore (l : List (QuestionIntent × Nat)) : Nat :=
  l.foldr (fun p m => max p.2 m) 0

/-- Spec-side detector, following the claim wording: if every category scores
0 the result is `general`; otherwise the first-declared category attaining
the strictly highest total score is returned. -/
def detectIntentSpec (msg : String) : QuestionIntent :=
  if maxScore (scoredIntents (lowerChars msg)) = 0 then .GENERAL
  else
    match (scoredIntents (lowerChars msg)).find?
        (fun p => p.2 == maxScore (scoredIntents (lowerChars msg))) with
    | some p => p.1
    | none => .GENERAL

theorem maxScore_cons (p : QuestionIntent × Nat) (ps : List (QuestionIntent × Nat)) :
    maxScore (p :: ps) = max p.2 (maxScore ps) := rfl

theorem bestPair_cons_some (p : QuestionIntent × Nat) (ps : List (QuestionIntent × Nat)) :
    ∃ q, bestPair (p :: ps) = some q := by
  unfold bestPair
  cases bestPair ps with
  | none => exact ⟨p, rfl⟩
  | some q =>
    by_cases h : q.2 > p.2
    · exact ⟨q, by simp [h]⟩
    · exact ⟨p, by simp [h]⟩

theorem bestPair_eq_find (l : List (QuestionIntent × Nat)) (hne : l ≠ []) :
    bestPair l = l.find? (fun p => p.2 == maxScore l) := by
  induction l with
  | nil => exact absurd rfl hne
  | cons p ps ih =>
    cases hps : ps with
    | nil =>
      subst hps
      simp [bestPair, maxScore, List.find?]
    | cons r rs =>
      rw [← hps]
      have hpsne : ps ≠ [] := by rw [hps]; simp
      have ihps := ih hpsne
      obtain ⟨q, hq⟩ : ∃ q, bestPair ps = some q := by
        rw [hps]; exact bestPair_cons_some r rs
      have hfind : ps.find? (fun x => x.2 == maxScore ps) = some q := by
        rw [← ihps]; exact hq
      have hqmax : q.2 = maxScore ps := by
        have := List.find?_some hfind
        simpa using this
      have hlhs : bestPair (p :: ps) = if q.2 > p.2 then some q else some p := by
        simp only [bestPair, hq]
      rw [hlhs]
      by_cases hgt : q.2 > p.2
      · have hM : maxScore (p :: ps) = q.2 := by
          rw [maxScore_cons, ← hqmax]
          exact Nat.max_eq_right (Nat.le_of_lt hgt)
        rw [if_pos hgt, hM]
        rw [List.find?_cons_of_neg]
        · rw [hqmax] at *
          exact hfind.symm
        · simp
          omega
      · have hle : q.2 ≤ p.2 := Nat.le_of_not_lt hgt
        have hM : maxScore (p :: ps) = p.2 := by
          rw [maxScore_cons, ← hqmax]
          exact Nat.max_eq_left hle
        rw [if_neg hgt, hM]
        rw [List.find?_cons_of_pos]
        simp

/-- C2.  `detect_intent` assigns each category the score
(substring count) + 2 * (whole-word count) and returns the first-declared
category with the strictly highest total; if every category scores 0 it
returns `general`.  Formally: the source translation `detect_intent`
coincides with `detectIntentSpec`, which is written from the claim wording
(pick the maximum score; on 0 return `GENERAL`; otherwise the first entry of
the enumeration-ordered table attaining the maximum). -/
theorem c2_detect_intent_spec (msg : String) :
    detect_intent msg = detectIntentSpec msg := by
  have hne : scoredIntents (lowerChars msg) ≠ [] := by
    simp [scoredIntents, intentOrder]
  obtain ⟨q, hq⟩ : ∃ q, bestPair (scoredIntents (lowerChars msg)) = some q := by
    cases hl : scoredIntents (lowerChars msg) with
    | nil => exact absurd hl hne
    | cons a l => exact bestPair_cons_some a l
  have hfind : (scoredIntents (lowerChars msg)).find?
      (fun p => p.2 == maxScore (scoredIntents (lowerChars msg))) = some q := by
    rw [← bestPair_eq_find _ hne]; exact hq
  have hqmax : q.2 = maxScore (scoredIntents (lowerChars msg)) := by
    have := List.find?_some hfind
    simpa using this
  unfold detect_intent detectIntentSpec
  rw [hq, hfind]
  by_cases h0 : maxScore (scoredIntents (lowerChars msg)) = 0
  · rw [if_pos h0]
    have hq0 : q.2 = 0 := hqmax.trans h0
    simp [hq0]
  · rw [if_neg h0]
    have hpos : q.2 > 0 := by omega
    show (if q.2 > 0 then q.1 else QuestionIntent.GENERAL) = q.1
    rw [if_pos hpos]

/-! ### Session history store — `chat.py` 146-160

One chat exchange appends a user turn and an assistant turn to the
session list and then truncates to the last 20 entries
(`chat_sessions[session_id] = chat_sessions[session_id][-20:]`). -/

/-- One stored turn, the dict `{"role": ..., "content": ...}`. -/
structure ChatTurn where
  role : String
  content : String
deriving DecidableEq

/-- `chat.py` 149-160: append the user message and the assistant response,
then keep only the last 20 messages. -/
def appendExchange (h : List ChatTurn) (userMsg asstMsg : String) : List ChatTurn :=
  let h2 := h ++ [⟨"user", userMsg⟩, ⟨"assistant", asstMsg⟩]
  if h2.length > 20 then h2.drop (h2.length - 20) else h2

/-- Session history after a sequence of exchanges, starting from the empty
session created on first message. -/
def historyAfter (exs : List (String × String)) : List ChatTurn :=
  exs.foldl (fun h e => appendExchange h e.1 e.2) []

/-- The uncapped log of all turns ever appended, in order. -/
def fullLog (exs : List (String × String)) : List ChatTurn :=
  exs.flatMap (fun e => [⟨"user", e.1⟩, ⟨"assistant", e.2⟩])

theorem appendExchange_length_le (h : List ChatTurn) (u a : String)
    (hh : h.length ≤ 20) : (appendExchange h u a).length ≤ 20 := by
  simp only [appendExchange]
  by_cases hl : (h ++ [⟨"user", u⟩, ⟨"assistant", a⟩] : List ChatTurn).length > 20
  · rw [if_pos hl, List.length_drop]
    omega
  · rw [if_neg hl]
    omega

theorem appendExchange_suffix (h : List ChatTurn) (u a : String) (L : List ChatTurn)
    (hs : h <:+ L) :
    appendExchange h u a <:+ L ++ [⟨"user", u⟩, ⟨"assistant", a⟩] := by
  have hs2 : h ++ [(⟨"user", u⟩ : ChatTurn), ⟨"assistant", a⟩] <:+
      L ++ [⟨"user", u⟩, ⟨"assistant", a⟩] := by
    obtain ⟨pre, hp⟩ := hs
    exact ⟨pre, by rw [← hp, List.append_assoc]⟩
  simp only [appendExchange]
  by_cases hl : (h ++ [⟨"user", u⟩, ⟨"assistant", a⟩] : List ChatTurn).length > 20
  · rw [if_pos hl]
    exact (List.drop_suffix _ _).trans hs2
  · rw [if_neg hl]
    exact hs2

theorem historyAfter_invariant (exs : List (String × String)) (h L : List ChatTurn)
    (hh : h.length ≤ 20) (hs : h <:+ L) :
    (exs.foldl (fun h e => appendExchange h e.1 e.2) h).length ≤ 20 ∧
    (exs.foldl (fun h e => appendExchange h e.1 e.2) h) <:+ (L ++ fullLog exs) := by
  induction exs generalizing h L with
  | nil => simpa [fullLog] using ⟨hh, hs⟩
  | cons e exs ih =>
    have h1 := appendExchange_length_le h e.1 e.2 hh
    have h2 := appendExchange_suffix h e.1 e.2 L hs
    have := ih (appendExchange h e.1 e.2) (L ++ [⟨"user", e.1⟩, ⟨"assistant", e.2⟩]) h1 h2
    simpa [fullLog, List.flatMap_cons, List.append_assoc] using this

/-- C5.  After any number of chat exchanges the stored session history has at
most 20 entries, and it is a suffix of the full ordered log of all appended
turns: the cap evicts the oldest entries first and preserves the order of
the surviving entries. -/
theorem c5_session_history_bounded_fifo (exs : List (String × String)) :
    (historyAfter exs).length ≤ 20 ∧ List.IsSuffix (historyAfter exs) (fullLog exs) := by
  have := historyAfter_invariant exs [] [] (by simp) (by simp)
  simpa [historyAfter] using this

/-! ### Rate limiter — `services/core/rate_limiter.py`

`datetime.utcnow()` is modelled as a natural number of seconds; the Python
expression `(now + timedelta(days=1)).replace(hour=0, minute=0, second=0,
microsecond=0)` (start of the next calendar day) becomes
`(now / 86400 + 1) * 86400`.  The nested defaultdict
`{user_id: {action_type: {'count': ..., 'reset_at': ...}}}` is modelled as a
total function from the two keys to a record whose fields are `Option`s
(absent dict keys are `none`); plain dict access through the defaultdict
creates only empty dicts, which is invisible in the functional model. -/

/-- The per-user, per-action record, dict keys `'count'` and `'reset_at'`. -/
structure UsageRec where
  count : Option Nat
  reset_at : Option Nat
deriving DecidableEq

def UsageRec.empty : UsageRec := ⟨none, none⟩

def RLState : Type := String → String → UsageRec

def emptyRLState : RLState := fun _ _ => UsageRec.empty

/-- Assignment `self._limits[user_id][action_type] = rec`. -/
def updateRec (st : RLState) (u a : String) (r : UsageRec) : RLState :=
  fun u' a' => if u' = u ∧ a' = a then r else st u' a'

/-- Start of the next calendar day after `now` (seconds model). -/
def nextMidnight (now : Nat) : Nat := (now / 86400 + 1) * 86400

/-- Return value of `check_rate_limit`. -/
structure RateCheckResult where
  allowed : Bool
  remaining : Nat
  limit : Nat
  reset_at : Option Nat
  current_count : Nat
deriving DecidableEq

/-- `RateLimiter.check_rate_limit` (`rate_limiter.py` 29-63): if no
`reset_at` is stored or `now >= reset_at`, zero the count and set `reset_at`
to the start of the next day; then report the current count, the remaining
allowance `max 0 (limit - count)` and `allowed = count < limit`. -/
def check_rate_limit (u a : String) (now limit : Nat) (st : RLState) :
    RateCheckResult × RLState :=
  let rec0 := st u a
  let step : UsageRec × RLState :=
    match rec0.reset_at with
    | none =>
      let r : UsageRec := ⟨some 0, some (nextMidnight now)⟩
      (r, updateRec st u a r)
    | some ra =>
      if now ≥ ra then
        let r : UsageRec := ⟨some 0, some (nextMidnight now)⟩
        (r, updateRec st u a r)
      else (rec0, st)
  let c := step.1.count.getD 0
  ({ allowed := decide (c < limit), remaining := limit - c, limit := limit,
     reset_at := step.1.reset_at, current_count := c }, step.2)

/-- `RateLimiter.increment_count` (`rate_limiter.py` 65-75): unconditionally
set `count` to `get('count', 0) + 1`; `reset_at` is not touched. -/
def increment_count (u a : String) (st : RLState) : Nat × RLState :=
  let r0 := st u a
  let newCount := r0.count.getD 0 + 1
  (newCount, updateRec st u a ⟨some newCount, r0.reset_at⟩)

/-- Iterated `check_rate_limit`, keeping only the state. -/
def checkIter (u a : String) (now limit : Nat) : Nat → RLState → RLState
  | 0, st => st
  | k + 1, st => checkIter u a now limit k (check_rate_limit u a now limit st).2

/-- Iterated `increment_count`, keeping only the state. -/
def incIter (u a : String) : Nat → RLState → RLState
  | 0, st => st
  | k + 1, st => incIter u a k (increment_count u a st).2

theorem updateRec_same (st : RLState) (u a : String) (r : UsageRec) :
    updateRec st u a r u a = r := by
  simp [updateRec]

theorem lt_nextMidnight (now : Nat) : now < nextMidnight now := by
  unfold nextMidnight
  have h := Nat.div_add_mod now 86400
  have h2 : now % 86400 < 86400 := Nat.mod_lt _ (by omega)
  omega

/-- An in-window check call (stored `reset_at = some r` with `now < r`)
returns the state unchanged. -/
theorem check_in_window_state (u a : String) (now limit : Nat) (st : RLState)
    (cnt : Option Nat) (r : Nat) (hr : st u a = ⟨cnt, some r⟩) (hw : now < r) :
    (check_rate_limit u a now limit st).2 = st := by
  unfold check_rate_limit
  rw [hr]
  simp [Nat.not_le.mpr hw]

/-- Result of an in-window check call. -/
theorem check_in_window_result (u a : String) (now limit : Nat) (st : RLState)
    (c r : Nat) (hr : st u a = ⟨some c, some r⟩) (hw : now < r) :
    (check_rate_limit u a now limit st).1 =
      ⟨decide (c < limit), limit - c, limit, some r, c⟩ := by
  unfold check_rate_limit
  rw [hr]
  simp [Nat.not_le.mpr hw]

theorem incIter_entry (u a : String) (n : Nat) (st : RLState) (c : Nat) (ra : Option Nat)
    (h : st u a = ⟨some c, ra⟩) :
    (incIter u a n st) u a = ⟨some (c + n), ra⟩ := by
  induction n generalizing st c with
  | zero => simpa [incIter] using h
  | succ k ih =>
    show (incIter u a k (increment_count u a st).2) u a = _
    have hstep : (increment_count u a st).2 u a = ⟨some (c + 1), ra⟩ := by
      unfold increment_count
      rw [h]
      simpa using updateRec_same st u a ⟨some (c + 1), ra⟩
    have := ih ((increment_count u a st).2) (c + 1) hstep
    simpa [Nat.add_assoc, Nat.add_comm 1 k] using this

/-- C3.  Within a single quota window: any number of further checks after the
first one leave the state (hence the stored count) unchanged, each reporting
`current_count = 0`; and after N increments a check reports
`current_count = N` with `allowed = (N < limit)`. -/
theorem c3_rate_limit_check_increment (u a : String) (now limit N : Nat)
    (hN : N < limit) :
    (∀ k, checkIter u a now limit k
        (check_rate_limit u a now limit emptyRLState).2 =
        (check_rate_limit u a now limit emptyRLState).2) ∧
    (check_rate_limit u a now limit
        (check_rate_limit u a now limit emptyRLState).2).1.current_count = 0 ∧
    (check_rate_limit u a now limit
        (incIter u a N (check_rate_limit u a now limit emptyRLState).2)).1.current_count = N ∧
    (check_rate_limit u a now limit
        (incIter u a N (check_rate_limit u a now limit emptyRLState).2)).1.allowed
      = decide (N < limit) := by
  have hst1 : (check_rate_limit u a now limit emptyRLState).2 =
      updateRec emptyRLState u a ⟨some 0, some (nextMidnight now)⟩ := by
    unfold check_rate_limit emptyRLState UsageRec.empty
    simp
  have hentry : (check_rate_limit u a now limit emptyRLState).2 u a =
      ⟨some 0, some (nextMidnight now)⟩ := by
    rw [hst1]; exact updateRec_same _ u a _
  have hfix : (check_rate_limit u a now limit
      (check_rate_limit u a now limit emptyRLState).2).2 =
      (check_rate_limit u a now limit emptyRLState).2 :=
    check_in_window_state u a now limit _ _ _ hentry (lt_nextMidnight now)
  have hN' : (incIter u a N (check_rate_limit u a now limit emptyRLState).2) u a =
      ⟨some N, some (nextMidnight now)⟩ := by
    have := incIter_entry u a N _ 0 (some (nextMidnight now)) hentry
    simpa using this
  refine ⟨?_, ?_, ?_, ?_⟩
  · intro k
    induction k with
    | zero => rfl
    | succ j ih =>
      show checkIter u a now limit j _ = _
      rw [hfix]
      exact ih
  · rw [check_in_window_result u a now limit _ 0 _ hentry (lt_nextMidnight now)]
  · rw [check_in_window_result u a now limit _ N _ hN' (lt_nextMidnight now)]
  · rw [check_in_window_result u a now limit _ N _ hN' (lt_nextMidnight now)]

/-- Witness for C3 at `u = "u1"`, `a = "chat"`, `now = 1000`, `limit = 100`,
`N = 3`. -/
theorem c3_rate_limit_check_increment_witness :
    (3 < 100) ∧
    ((∀ k, checkIter "u1" "chat" 1000 100 k
        (check_rate_limit "u1" "chat" 1000 100 emptyRLState).2 =
        (check_rate_limit "u1" "chat" 1000 100 emptyRLState).2) ∧
    (check_rate_limit "u1" "chat" 1000 100
        (check_rate_limit "u1" "chat" 1000 100 emptyRLState).2).1.current_count = 0 ∧
    (check_rate_limit "u1" "chat" 1000 100
        (incIter "u1" "chat" 3 (check_rate_limit "u1" "chat" 1000 100 emptyRLState).2)).1.current_count = 3 ∧
    (check_rate_limit "u1" "chat" 1000 100
        (incIter "u1" "chat" 3 (check_rate_limit "u1" "chat" 1000 100 emptyRLState).2)).1.allowed
      = decide (3 < 100)) :=
  ⟨by decide, c3_rate_limit_check_increment "u1" "chat" 1000 100 3 (by decide)⟩

/-- C4.  The check call itself performs the window reset: on a missing record
or an expired window (`now ≥ reset_at`) it stores count 0 with `reset_at` at
the next local midnight and reports `current_count = 0`; `increment_count`
never resets: it always bumps the stored count by one and leaves `reset_at`
untouched, so an increment without a preceding check carries a stale count
past the window boundary. -/
theorem c4_reset_in_check_not_increment (u a : String) (now limit : Nat) (st : RLState)
    (h : (st u a).reset_at = none ∨ ∃ r, (st u a).reset_at = some r ∧ r ≤ now) :
    ((check_rate_limit u a now limit st).2 u a
        = ⟨some 0, some (nextMidnight now)⟩) ∧
    (check_rate_limit u a now limit st).1.current_count = 0 ∧
    (check_rate_limit u a now limit st).1.reset_at = some (nextMidnight now) ∧
    ((increment_count u a st).2 u a
        = ⟨some ((st u a).count.getD 0 + 1), (st u a).reset_at⟩) := by
  have hinc : (increment_count u a st).2 u a
      = ⟨some ((st u a).count.getD 0 + 1), (st u a).reset_at⟩ := by
    simp only [increment_count]
    exact updateRec_same _ u a _
  rcases h with hnone | ⟨r, hr, hle⟩
  · refine ⟨?_, ?_, ?_, hinc⟩ <;>
      · simp only [check_rate_limit]
        rw [hnone]
        try simp [updateRec_same]
  · refine ⟨?_, ?_, ?_, hinc⟩ <;>
      · simp only [check_rate_limit]
        rw [hr]
        try simp [ge_iff_le, hle, updateRec_same]

/-- Witness for C4 on a concrete expired record: user `"u1"`, action
`"chat"`, stored `{count: 5, reset_at: 100}`, `now = 200`, limit 100. -/
theorem c4_reset_in_check_not_increment_witness :
    (((updateRec emptyRLState "u1" "chat" ⟨some 5, some 100⟩) "u1" "chat").reset_at = none ∨
      (∃ r, ((updateRec emptyRLState "u1" "chat" ⟨some 5, some 100⟩) "u1" "chat").reset_at
          = some r ∧ r ≤ 200)) ∧
    (((check_rate_limit "u1" "chat" 200 100
          (updateRec emptyRLState "u1" "chat" ⟨some 5, some 100⟩)).2 "u1" "chat"
        = ⟨some 0, some (nextMidnight 200)⟩) ∧
      (check_rate_limit "u1" "chat" 200 100
          (updateRec emptyRLState "u1" "chat" ⟨some 5, some 100⟩)).1.current_count = 0 ∧
      (check_rate_limit "u1" "chat" 200 100
          (updateRec emptyRLState "u1" "chat" ⟨some 5, some 100⟩)).1.reset_at
        = some (nextMidnight 200) ∧
      ((increment_count "u1" "chat"
          (updateRec emptyRLState "u1" "chat" ⟨some 5, some 100⟩)).2 "u1" "chat"
        = ⟨some (((updateRec emptyRLState "u1" "chat" ⟨some 5, some 100⟩) "u1"
              "chat").count.getD 0 + 1),
            ((updateRec emptyRLState "u1" "chat" ⟨some 5, some 100⟩) "u1"
              "chat").reset_at⟩)) :=
  ⟨Or.inr ⟨100, by decide, by decide⟩,
   c4_reset_in_check_not_increment "u1" "chat" 200 100
     (updateRec emptyRLState "u1" "chat" ⟨some 5, some 100⟩)
     (Or.inr ⟨100, by decide, by decide⟩)⟩

/-! ### System context — the dict supplied by `get_system_context`
(`chat.py` 42-96) and read by the agent and the fallback responders.
Only the fields the verified logic reads are modelled (`name`, `is_on`,
`current_power`, `severity`, `message`); `voltage`/`current` are floating
point and unused by the deterministic core. -/

structure LoadInfo where
  load_id : Nat
  name : String
  is_on : Bool
  current_power : Nat
  auto_mode : Bool
deriving DecidableEq

structure AlertInfo where
  load_id : Nat
  severity : String
  message : String
deriving DecidableEq

structure TrendInfo where
  load_id : Nat
  avg_power : Nat
  max_power : Nat
deriving DecidableEq

structure SystemContext where
  loads : List LoadInfo
  recentAlerts : List AlertInfo
  hourlyTrends : List TrendInfo
  timestamp : String
deriving DecidableEq

/-- `sum(l.get('current_power', 0) for l in loads)`. -/
def totalPower (loads : List LoadInfo) : Nat :=
  (loads.map (fun l => l.current_power)).sum

/-- `sum(1 for l in loads if l.get('is_on'))`. -/
def activeLoads (loads : List LoadInfo) : Nat :=
  loads.countP (fun l => l.is_on)

/-! ### Quick-insights aggregator — `AIAgent.get_quick_insights`
(`ai_agent.py` 318-356) and `AIAgent._generate_quick_tips` (358-388).
`datetime.now().hour` and `datetime.utcnow().isoformat()` are external
clock reads, passed in as the `hour` and `nowIso` parameters. -/

structure HealthInfo where
  status : String
  message : String
deriving DecidableEq

structure MetricsInfo where
  total_power_w : Nat
  active_loads : Nat
  total_loads : Nat
  active_alerts : Nat
  critical_alerts : Nat
deriving DecidableEq

structure QuickInsights where
  health : HealthInfo
  metrics : MetricsInfo
  quick_tips : List String
  generated_at : String
deriving DecidableEq

/-- `AIAgent._generate_quick_tips` (`ai_agent.py` 358-388). -/
def generate_quick_tips (loads : List LoadInfo) (alerts : List AlertInfo)
    (hour : Nat) : List String :=
  let tips := (loads.filter (fun l => l.is_on && decide (l.current_power > 500))).map
    (fun l => " " ++ l.name ++ " is consuming significant power")
  let tips := tips ++
    (if alerts.isEmpty then []
     else [" Review " ++ toString alerts.length ++ " active alert(s) in the Alerts panel"])
  let tips := tips ++
    (if 9 ≤ hour ∧ hour ≤ 17 then
       [" Peak hours - consider postponing non-essential high-power tasks"]
     else if 22 ≤ hour ∨ hour < 6 then
       [" Off-peak hours - good time for high-power scheduled tasks"]
     else [])
  let tips := if tips.isEmpty then [" All systems normal - no immediate actions required"]
    else tips
  tips.take 5

/-- `AIAgent.get_quick_insights` (`ai_agent.py` 318-356). -/
def get_quick_insights (ctx : SystemContext) (hour : Nat) (nowIso : String) :
    QuickInsights :=
  let loads := ctx.loads
  let alerts := ctx.recentAlerts
  let total_power := totalPower loads
  let active_loads := activeLoads loads
  let critical_alerts := alerts.countP (fun a => a.severity == "critical")
  let health : HealthInfo :=
    if critical_alerts > 0 then
      ⟨"critical", " " ++ toString critical_alerts ++ " critical alert(s) require attention"⟩
    else if alerts.length > 3 then
      ⟨"warning", "Multiple alerts (" ++ toString alerts.length ++ ") - review recommended"⟩
    else ⟨"healthy", "System operating normally"⟩
  { health := health,
    metrics := ⟨total_power, active_loads, loads.length, alerts.length, critical_alerts⟩,
    quick_tips := generate_quick_tips loads alerts hour,
    generated_at := nowIso }

/-- C7.  The quick-insights health status is `critical` exactly when some
alert has severity `critical` (whatever the load state), otherwise `warning`
exactly when there are strictly more than 3 alerts, and `healthy` otherwise
(in particular with 0 alerts). -/
theorem c7_quick_insights_health (ctx : SystemContext) (hour : Nat) (nowIso : String) :
    (get_quick_insights ctx hour nowIso).health.status =
      (if ctx.recentAlerts.any (fun a => a.severity == "critical") then "critical"
       else if 3 < ctx.recentAlerts.length then "warning"
       else "healthy") := by
  simp only [get_quick_insights]
  by_cases hc : ctx.recentAlerts.any (fun a => a.severity == "critical")
  · have hpos : 0 < ctx.recentAlerts.countP (fun a => a.severity == "critical") := by
      rw [List.countP_pos_iff]
      exact List.any_eq_true.mp hc
    rw [if_pos hc]
    simp [hpos]
  · have hzero : ctx.recentAlerts.countP (fun a => a.severity == "critical") = 0 := by
      by_contra hzz
      have hpos : 0 < ctx.recentAlerts.countP (fun a => a.severity == "critical") := by
        omega
      exact hc (List.any_eq_true.mpr (List.countP_pos_iff.mp hpos))
    rw [if_neg hc, hzero]
    by_cases h3 : 3 < ctx.recentAlerts.length
    · rw [if_pos h3]
      simp [h3]
    · rw [if_neg h3]
      have : ¬ ctx.recentAlerts.length > 3 := h3
      simp [this]

/-! ### Response guidance selector — `AIAgent.get_intent_guidance`
(`ai_agent.py` 169-238).  The Python code builds `guidance_map` (whose
`ALERTS` entry interpolates `len(alerts)`) and returns
`guidance_map.get(intent, guidance_map[GENERAL])`; every enum value is a
key, so this is a total lookup. -/

def get_intent_guidance (intent : QuestionIntent) (ctx : SystemContext) : String :=
  let alerts := ctx.recentAlerts
  match intent with
  | .STATUS =>
    "Report the CURRENT STATE of the system or specific loads. Include on/off status, power readings, and any relevant metrics."
  | .ALERTS =>
    "Focus on ALERTS and WARNINGS. There are currently " ++ toString alerts.length ++
      " active alerts. Explain severity, affected devices, and recommended actions."
  | .ENERGY =>
    "Discuss ENERGY CONSUMPTION. Provide power readings in Watts, consumption in kWh, and contextual comparisons."
  | .COST =>
    "Analyze COSTS. Calculate estimated expenses, identify high-cost devices, and suggest cost-saving opportunities."
  | .CONTROL =>
    "Address CONTROL requests. Evaluate safety before recommending actions. Consider current load state and any active alerts."
  | .ANOMALY =>
    "Analyze for ANOMALIES. Look for unusual patterns, unexpected readings, or deviations from normal operation."
  | .COMPARISON =>
    "Provide COMPARISON analysis. Compare the requested items/periods with specific metrics and highlight differences."
  | .TREND =>
    "Discuss TRENDS over time. Identify patterns, changes in consumption, and notable shifts in usage behavior."
  | .SCHEDULE =>
    "Address SCHEDULING. Suggest optimal times for operation, automation possibilities, and time-based efficiency."
  | .MAINTENANCE =>
    "Provide MAINTENANCE guidance. Suggest inspection schedules, signs of wear, and preventive measures."
  | .SAFETY =>
    "Address SAFETY concerns immediately. Prioritize hazard identification, protective measures, and emergency procedures."
  | .OPTIMIZATION =>
    "Focus on OPTIMIZATION and efficiency. Provide actionable tips to reduce consumption and improve performance."
  | .HISTORY =>
    "Present HISTORICAL data. Reference past readings, events, and changes over the specified time period."
  | .FORECAST =>
    "Provide PREDICTIONS based on current data and historical patterns. Include confidence levels and assumptions."
  | .GENERAL =>
    "Provide a comprehensive response using all relevant context. Be helpful and informative."

/-- An empty context and a context with one alert, used to separate
context-dependent from context-independent guidance entries. -/
def ctxNoAlerts : SystemContext := ⟨[], [], [], "t0"⟩

def ctxOneAlert : SystemContext :=
  ⟨[], [⟨1, "warning", "DC Fan power consumption slightly elevated"⟩], [], "t1"⟩

/-- C9 counterexample.  The claim says the `energy` category interpolates
the live alert count into its instruction; in the code the `ENERGY` entry is
a fixed string: it is identical for contexts with 0 and with 1 alert, while
the `ALERTS` entry (the only interpolating one) differs between the same two
contexts. -/
theorem c9_energy_counterexample :
    get_intent_guidance .ENERGY ctxNoAlerts = get_intent_guidance .ENERGY ctxOneAlert ∧
    get_intent_guidance .ALERTS ctxNoAlerts ≠ get_intent_guidance .ALERTS ctxOneAlert := by
  constructor
  · rfl
  · decide

/-- C9 (amended).  The guidance selector is a pure lookup from the intent
enumeration to an instruction string; only the `alerts` category
interpolates the live alert count from the context, and every other
category's instruction is independent of the context. -/
theorem c9_guidance_amended (i : QuestionIntent) (ctx ctx' : SystemContext)
    (h : i ≠ QuestionIntent.ALERTS) :
    get_intent_guidance i ctx = get_intent_guidance i ctx' ∧
    get_intent_guidance .ALERTS ctx =
      "Focus on ALERTS and WARNINGS. There are currently " ++
        toString ctx.recentAlerts.length ++
        " active alerts. Explain severity, affected devices, and recommended actions." := by
  refine ⟨?_, rfl⟩
  cases i <;> first
    | rfl
    | exact absurd rfl h

/-- Witness for C9 at intent `ENERGY` and the two concrete contexts. -/
theorem c9_guidance_amended_witness :
    (QuestionIntent.ENERGY ≠ QuestionIntent.ALERTS) ∧
    (get_intent_guidance .ENERGY ctxNoAlerts = get_intent_guidance .ENERGY ctxOneAlert ∧
     get_intent_guidance .ALERTS ctxNoAlerts =
       "Focus on ALERTS and WARNINGS. There are currently " ++
         toString ctxNoAlerts.recentAlerts.length ++
         " active alerts. Explain severity, affected devices, and recommended actions.") :=
  ⟨by decide, c9_guidance_amended .ENERGY ctxNoAlerts ctxOneAlert (by decide)⟩

/-! ### Entity extraction — `AIAgent.extract_entities` (`ai_agent.py` 135-154)
with the patterns of `entity_patterns` (106-111).

Each pattern is an alternation of literal words between `\b` boundaries,
except `number`, which is `\b(\d+(?:\.\d+)?)\s*(w|kw|kwh|watts?|kilowatts?)?\b`.
`re.findall` is modelled by left-to-right scanners that attempt a match at
each position (every alternative begins and ends with a word character, so
the leading `\b` holds exactly when the previous character is absent or a
non-word character), pick the first alternative that also satisfies the
trailing `\b`, and resume after the consumed text (non-overlapping
matches).  For the `number` pattern the scanner mirrors the backtracking
order of the regex engine: greedy digits, greedy optional fraction, greedy
`\s*`, the unit alternatives in order (`watts?` tries `watts` then `watt`),
then the empty unit, giving `\s*` back when the final `\b` fails. -/

/-- First alternative that matches as a literal prefix with a word boundary
after it (the regex alternation preference order). -/
def tryAlts (alts : List (List Char)) (l : List Char) : Option (List Char) :=
  alts.find? (fun w => w.isPrefixOf l && boundaryAfterL (l.drop w.length))

/-- `re.findall` for a `\b(alt1|alt2|...)\b` pattern: scan left to right,
emit the matched word, continue after it.  The `fuel` argument only makes
the recursion structural: every step consumes at least one character, so
with initial fuel `l.length` the fuel never runs out. -/
def scanWordAlts (alts : List (List Char)) : Nat → Option Char → List Char → List (List Char)
  | 0, _, _ => []
  | _ + 1, _, [] => []
  | fuel + 1, prev, c :: cs =>
    if boundaryBefore prev then
      match tryAlts alts (c :: cs) with
      | some w => w :: scanWordAlts alts fuel (some (w.getLastD c)) (cs.drop (w.length - 1))
      | none => scanWordAlts alts fuel (some c) cs
    else scanWordAlts alts fuel (some c) cs

def loadAlts : List (List Char) :=
  (["fan", "bulb", "heater", "ac", "dc", "motor", "pump", "light", "lamp"]).map String.data

def timeAlts : List (List Char) :=
  (["today", "yesterday", "this week", "last week", "this month", "hour", "day",
    "week", "month"]).map String.data

def actionAlts : List (List Char) :=
  (["turn on", "turn off", "switch on", "switch off", "start", "stop", "enable",
    "disable"]).map String.data

/-- Unit alternatives of the `number` pattern in alternation order;
`watts?` and `kilowatts?` expand greedily to the `s` form first. -/
def unitAlts : List (List Char) :=
  (["w", "kw", "kwh", "watts", "watt", "kilowatts", "kilowatt"]).map String.data

def findUnit (l : List Char) : Option (List Char) :=
  unitAlts.find? (fun u => u.isPrefixOf l && boundaryAfterL (l.drop u.length))

/-- Match of `\s*(w|kw|kwh|watts?|kilowatts?)?\b` directly after the numeric
part (whose last character is a digit).  Returns the captured unit (possibly
empty) and how many further characters the match consumes.  Greedy `\s*`
first tries the unit after all the whitespace; failing that, the empty unit
needs a `\b`, which after whitespace requires a following word character,
and otherwise forces `\s*` to give everything back (ending right after the
digits, where the boundary digit/non-digit always holds when the next
character is a non-word character or the input ends). -/
def numTail (afterNum : List Char) : Option (List Char × Nat) :=
  let sp := afterNum.takeWhile (fun c => c.isWhitespace)
  let restu := afterNum.drop sp.length
  match findUnit restu with
  | some u => some (u, sp.length + u.length)
  | none =>
    if sp.length > 0 then
      match restu with
      | c :: _ => if isWordChar c then some ([], sp.length) else some ([], 0)
      | [] => some ([], 0)
    else
      match restu with
      | [] => some ([], 0)
      | c :: _ => if isWordChar c then none else some ([], 0)

/-- One attempt of the `number` pattern at the current position (the
position must start with a digit; the leading `\b` is checked by the
caller).  Returns the first capture (the numeric literal), the second
capture (the unit, possibly empty) and the total number of characters
consumed. -/
def numMatchHere (l : List Char) : Option (List Char × List Char × Nat) :=
  let ds := l.takeWhile (fun c => c.isDigit)
  if ds.isEmpty then none
  else
    let r1 := l.drop ds.length
    let frac : List Char :=
      match r1 with
      | '.' :: r2 =>
        let fd := r2.takeWhile (fun c => c.isDigit)
        if fd.isEmpty then [] else '.' :: fd
      | _ => []
    if frac.isEmpty then
      match numTail r1 with
      | some (u, k) => some (ds, u, ds.length + k)
      | none => none
    else
      match numTail (l.drop (ds.length + frac.length)) with
      | some (u, k) => some (ds ++ frac, u, ds.length + frac.length + k)
      | none =>
        match numTail r1 with
        | some (u, k) => some (ds, u, ds.length + k)
        | none => none

/-- `re.findall` for the `number` pattern: pairs (numeric capture, unit
capture).  The `fuel` argument only makes the recursion structural; every
step consumes at least one character (a match consumes at least its digits),
so with initial fuel `l.length` the fuel never runs out. -/
def scanNumbers : Nat → Option Char → List Char → List (List Char × List Char)
  | 0, _, _ => []
  | _ + 1, _, [] => []
  | fuel + 1, prev, c :: cs =>
    if boundaryBefore prev then
      match numMatchHere (c :: cs) with
      | some (n, u, k) =>
        (n, u) :: scanNumbers fuel (some (((c :: cs).take k).getLastD c)) (cs.drop (k - 1))
      | none => scanNumbers fuel (some c) cs
    else scanNumbers fuel (some c) cs

/-- A `re.findall` result item: a plain string for single-group patterns, a
tuple for the two-group `number` pattern. -/
inductive MatchVal where
  | single (s : String)
  | pair (a b : String)
deriving DecidableEq

/-- Flattening of one findall item (`ai_agent.py` 146-151): tuples
contribute their non-empty components, strings contribute themselves. -/
def flattenMatch : MatchVal → List String
  | .single s => [s]
  | .pair a b => [a, b].filter (fun x => !(x == ""))

def entity_patterns_order : List String :=
  ["load_name", "time_period", "number", "action"]

/-- `re.findall(pattern, message_lower, re.IGNORECASE)` for each entity
type (the message is already lower-cased, so `IGNORECASE` is inert). -/
def rawMatches (t : String) (ml : List Char) : List MatchVal :=
  if t = "load_name" then
    (scanWordAlts loadAlts ml.length none ml).map (fun w => .single ⟨w⟩)
  else if t = "time_period" then
    (scanWordAlts timeAlts ml.length none ml).map (fun w => .single ⟨w⟩)
  else if t = "number" then
    (scanNumbers ml.length none ml).map (fun p => .pair ⟨p.1⟩ ⟨p.2⟩)
  else if t = "action" then
    (scanWordAlts actionAlts ml.length none ml).map (fun w => .single ⟨w⟩)
  else []

/-- `AIAgent.extract_entities` (`ai_agent.py` 135-154): one independent scan
per entity type over the lower-cased message; a type is inserted (with its
flattened matches) only when its raw match list is non-empty. -/
def extract_entities (msg : String) : List (String × List String) :=
  entity_patterns_order.filterMap (fun t =>
    let ms := rawMatches t (lowerChars msg)
    if ms.isEmpty then none
    else some (t, ms.flatMap flattenMatch))

/-- `AIAgent.is_follow_up` (`ai_agent.py` 156-167). -/
def follow_up_indicators : List String :=
  ["what about", "how about", "and", "also", "more", "tell me more", "explain",
   "why", "can you", "elaborate", "details", "specifically", "that", "this",
   "it", "them", "those"]

def is_follow_up (msg : String) : Bool :=
  follow_up_indicators.any (fun w => containsSeq w.data (lowerChars msg))

theorem numMatchHere_fst_ne (l : List Char) (n u : List Char) (k : Nat)
    (h : numMatchHere l = some (n, u, k)) : n ≠ [] := by
  simp only [numMatchHere] at h
  by_cases hds : (l.takeWhile (fun c => c.isDigit)).isEmpty = true
  · rw [if_pos hds] at h
    exact absurd h (by simp)
  · rw [if_neg hds] at h
    have hne : l.takeWhile (fun c => c.isDigit) ≠ [] := by
      intro hnil
      rw [hnil] at hds
      exact hds rfl
    split at h
    · split at h
      · simp only [Option.some.injEq, Prod.mk.injEq] at h
        rcases h with ⟨h1, -, -⟩
        rw [← h1]
        exact hne
      · exact absurd h (by simp)
    · split at h
      · simp only [Option.some.injEq, Prod.mk.injEq] at h
        rcases h with ⟨h1, -, -⟩
        rw [← h1]
        intro hc
        exact hne (List.append_eq_nil.mp hc).1
      · split at h
        · simp only [Option.some.injEq, Prod.mk.injEq] at h
          rcases h with ⟨h1, -, -⟩
          rw [← h1]
          exact hne
        · exact absurd h (by simp)

/-- Every pair produced by the number scanner has a non-empty numeric
capture. -/
theorem scanNumbers_fst_ne (fuel : Nat) (prev : Option Char) (l : List Char) :
    ∀ p ∈ scanNumbers fuel prev l, p.1 ≠ [] := by
  induction fuel generalizing prev l with
  | zero => intro p hp; simp [scanNumbers] at hp
  | succ f ih =>
    intro p hp
    cases l with
    | nil => simp [scanNumbers] at hp
    | cons c cs =>
      rw [scanNumbers] at hp
      by_cases hb : boundaryBefore prev = true
      · rw [if_pos hb] at hp
        cases hm : numMatchHere (c :: cs) with
        | none =>
          rw [hm] at hp
          exact ih _ _ p hp
        | some r =>
          obtain ⟨n, u, k⟩ := r
          rw [hm] at hp
          simp only [List.mem_cons] at hp
          rcases hp with rfl | hp
          · simpa using numMatchHere_fst_ne _ _ _ _ hm
          · exact ih _ _ p hp
      · rw [if_neg hb] at hp
        exact ih _ _ p hp

theorem flattenMatch_ne_of_pair (a b : String) (ha : a ≠ "") :
    flattenMatch (.pair a b) ≠ [] := by
  simp only [flattenMatch]
  intro hnil
  have := List.filter_eq_nil_iff.mp hnil a (by simp)
  simp [ha] at this

/-- For a match list all of whose items flatten non-trivially, the flattened
list is empty exactly when the raw list is. -/
theorem flatMap_flatten_isEmpty (ms : List MatchVal)
    (hne : ∀ m ∈ ms, flattenMatch m ≠ []) :
    (ms.flatMap flattenMatch).isEmpty = ms.isEmpty := by
  cases ms with
  | nil => rfl
  | cons m rest =>
    have hm : flattenMatch m ≠ [] := hne m (by simp)
    simp only [List.flatMap_cons, List.isEmpty_cons]
    cases hfm : flattenMatch m with
    | nil => exact absurd hfm hm
    | cons x xs => simp

theorem rawMatches_flatten_isEmpty (t : String) (ml : List Char)
    (ht : t ∈ entity_patterns_order) :
    ((rawMatches t ml).flatMap flattenMatch).isEmpty = (rawMatches t ml).isEmpty := by
  apply flatMap_flatten_isEmpty
  intro m hm
  simp only [entity_patterns_order, List.mem_cons, List.not_mem_nil, or_false] at ht
  rcases ht with rfl | rfl | rfl | rfl
  · simp only [rawMatches, if_pos rfl] at hm
    obtain ⟨w, _, rfl⟩ := List.mem_map.mp hm
    simp [flattenMatch]
  · simp [rawMatches] at hm
    obtain ⟨w, _, rfl⟩ := hm
    simp [flattenMatch]
  · simp [rawMatches] at hm
    obtain ⟨a, b, hmem, rfl⟩ := hm
    apply flattenMatch_ne_of_pair
    have hne := scanNumbers_fst_ne ml.length none ml (a, b) hmem
    intro hs
    apply hne
    have := congrArg String.data hs
    simpa using this
  · simp [rawMatches] at hm
    obtain ⟨w, _, rfl⟩ := hm
    simp [flattenMatch]

/-- C8.  `extract_entities` scans the lower-cased message independently with
one pattern per entity type; tuple captures are flattened with empty
captures dropped, and an entity type is present in the result exactly when
it has matches (never mapped to an empty sequence): the looked-up value for
each entity type equals the flattened match list when that list is
non-empty, and is absent otherwise. -/
theorem c8_extract_entities_spec (msg : String) (t : String)
    (ht : t ∈ entity_patterns_order) :
    (extract_entities msg).lookup t =
      (if ((rawMatches t (lowerChars msg)).flatMap flattenMatch).isEmpty then none
       else some ((rawMatches t (lowerChars msg)).flatMap flattenMatch)) := by
  have hflat : ∀ t' ∈ entity_patterns_order,
      ((rawMatches t' (lowerChars msg)).flatMap flattenMatch).isEmpty
        = (rawMatches t' (lowerChars msg)).isEmpty :=
    fun t' ht' => rawMatches_flatten_isEmpty t' (lowerChars msg) ht'
  rw [hflat t ht]
  simp only [entity_patterns_order, List.mem_cons, List.not_mem_nil, or_false] at ht
  by_cases h1 : rawMatches "load_name" (lowerChars msg) = [] <;>
    by_cases h2 : rawMatches "time_period" (lowerChars msg) = [] <;>
    by_cases h3 : rawMatches "number" (lowerChars msg) = [] <;>
    by_cases h4 : rawMatches "action" (lowerChars msg) = [] <;>
    rcases ht with rfl | rfl | rfl | rfl <;>
    simp [extract_entities, entity_patterns_order, List.isEmpty_iff, h1, h2, h3, h4,
      List.lookup]

/-- Witness for C8 at the message `"turn on the dc fan at 3.5 kw today"`
and entity type `"number"` (whose tuple matches carry an empty second
capture exactly when no unit follows the numeral). -/
theorem c8_extract_entities_spec_witness :
    ("number" ∈ entity_patterns_order) ∧
    ((extract_entities "turn on the dc fan at 3.5 kw today").lookup "number" =
      (if ((rawMatches "number" (lowerChars "turn on the dc fan at 3.5 kw today")).flatMap
            flattenMatch).isEmpty then none
       else some ((rawMatches "number"
            (lowerChars "turn on the dc fan at 3.5 kw today")).flatMap flattenMatch))) :=
  ⟨by decide, c8_extract_entities_spec "turn on the dc fan at 3.5 kw today" "number" (by decide)⟩

/-- Sanity check of the findall model on a concrete message. -/
theorem extract_entities_example :
    extract_entities "turn on the dc fan at 3.5 kw today" =
      [("load_name", ["dc", "fan"]), ("time_period", ["today"]),
       ("number", ["3.5", "kw"]), ("action", ["turn on"])] := by
  decide

/-! ### LLM gateway — `services/llm/gemini_service.py`

The two providers and `json.loads` are external collaborators; a provider
call is modelled as an oracle outcome: `some t` is a successful reply whose
(truthy, i.e. non-empty) text is `t`, `none` is any failure the Python code
catches (transport error, exception, empty text).  `initialized` and the
presence of a Cerebras key are the service configuration fixed at startup
(`gemini_service.py` 29-80). -/

/-- Python `str.strip()` over char lists: drop whitespace from both ends. -/
def dropEndWs (l : List Char) : List Char :=
  (l.reverse.dropWhile (fun c => c.isWhitespace)).reverse

def stripL (l : List Char) : List Char :=
  (dropEndWs l).dropWhile (fun c => c.isWhitespace)

/-- Python `str.strip()`. -/
def pyStrip (s : String) : String := ⟨stripL s.data⟩

/-- Python `str.upper()` (ASCII model). -/
def upperString (s : String) : String := ⟨s.data.map Char.toUpper⟩

structure GeminiServiceState where
  initialized : Bool
  hasCerebrasKey : Bool
deriving DecidableEq

structure ProviderOutcomes where
  gemini : Option String
  cerebras : Option String
deriving DecidableEq

/-- `GeminiService._generate_fallback_response` (`gemini_service.py`
454-543): a deterministic template keyed by substrings of the lower-cased
message, filled from the context. -/
def generate_fallback_response (message : String) (ctx : SystemContext) : String :=
  let ml := lowerChars message
  let loads := ctx.loads
  let alerts := ctx.recentAlerts
  if ["status", "state", "how", "what"].any (fun w => containsSeq w.data ml) then
    let load_status := loads.map (fun l =>
      "• **" ++ l.name ++ "**: " ++ (if l.is_on then "ON" else "OFF") ++
        " (" ++ toString l.current_power ++ "W)")
    "## Current System Status\n\n### Load States\n" ++
      (if load_status.isEmpty then "No load data available"
       else String.intercalate "\n" load_status) ++
      "\n\n### Active Alerts\n" ++
      (if alerts.isEmpty then " No active alerts"
       else " " ++ toString alerts.length ++ " active alert(s)") ++
      "\n\n### Summary\nThe system is operating " ++
      (if alerts.isEmpty then "normally" else "with some alerts that need attention") ++
      ".\n\n---\nWould you like more details about any specific load or alert?"
  else if ["alert", "warning", "problem", "issue"].any (fun w => containsSeq w.data ml) then
    if !alerts.isEmpty then
      "## Active Alerts\n\n" ++
        String.intercalate "\n" ((alerts.take 5).map (fun a =>
          "• **" ++ upperString a.severity ++ "**: " ++ a.message)) ++
        "\n\n### Recommendations\n- Check the affected loads for any physical issues\n" ++
        "- Review the power readings for anomalies\n" ++
        "- Consider reducing load if power consumption is high\n\n---\n" ++
        "Need help with a specific alert?"
    else
      "## Alert Status\n\n **No active alerts!**\n\nYour system is operating normally. " ++
        "All loads are within expected parameters.\n\n---\n" ++
        "Is there anything specific you\x27d like me to check?"
  else if ["energy", "power", "consumption", "cost"].any (fun w => containsSeq w.data ml) then
    "## Energy Overview\n\n### Current Consumption\n**Total Power**: " ++
      toString (totalPower loads) ++ "W\n\n### Load Breakdown\n" ++
      String.intercalate "\n" (loads.map (fun l =>
        "• " ++ l.name ++ ": " ++ toString l.current_power ++ "W")) ++
      "\n\n### Energy-Saving Tips\n1. Turn off unused devices during peak hours\n" ++
      "2. Consider using timers for heaters\n3. Monitor high-consumption devices closely" ++
      "\n\n---\nWould you like a detailed energy report?"
  else
    "## Smart Load Dashboard Assistant\n\nI\x27m here to help you with your smart " ++
      "electrical monitoring system!\n\n### What I Can Help With\n" ++
      "• **System Status** - Check current load states and readings\n" ++
      "• **Alerts & Warnings** - View and understand active alerts\n" ++
      "• **Energy Analysis** - Get insights on power consumption\n" ++
      "• **Control Recommendations** - Safe operation guidance\n" ++
      "• **Troubleshooting** - Help diagnose issues\n\n### Current Quick Stats\n" ++
      "- Active Loads: " ++ toString (activeLoads loads) ++ " / " ++
      toString loads.length ++ "\n- Total Power: " ++ toString (totalPower loads) ++
      "W\n- Active Alerts: " ++ toString alerts.length ++
      "\n\n---\nHow can I assist you today?"

/-- `GeminiService.chat` (`gemini_service.py` 109-202).  When the service is
not initialized the deterministic fallback answers directly; otherwise the
primary (Gemini) outcome is used if successful, then the secondary
(Cerebras) outcome when a key is configured, and the fallback covers every
remaining case.  The prompt composition only feeds the providers and does
not influence this control flow. -/
def GeminiService.chat (svc : GeminiServiceState) (out : ProviderOutcomes)
    (message : String) (ctx : SystemContext)
    (_history : List (String × String)) : String :=
  if !svc.initialized then generate_fallback_response message ctx
  else
    match out.gemini with
    | some t => pyStrip t
    | none =>
      if svc.hasCerebrasKey then
        match out.cerebras with
        | some t => pyStrip t
        | none => generate_fallback_response message ctx
      else generate_fallback_response message ctx

/-- `AIAgent._enhance_response` (`ai_agent.py` 292-316). -/
def enhance_response (response : String) (intent : QuestionIntent)
    (ctx : SystemContext) : String :=
  if intent = .ALERTS ∧ ¬ctx.recentAlerts.isEmpty then
    if ¬ctx.recentAlerts.isEmpty ∧
        ¬(containsSeq "alert".data (lowerChars response) = true) then
      response ++ "\n\n---\n**Quick Alert Summary**: " ++
        toString ctx.recentAlerts.length ++ " active alert(s)"
    else response
  else if intent = .ENERGY then
    if ¬(containsSeq (toString (totalPower ctx.loads)).data response.data = true) then
      response ++ "\n\n---\n**Current Total Power**: " ++
        toString (totalPower ctx.loads) ++ "W"
    else response
  else response

/-- Return value of `AIAgent.process_query` (`ai_agent.py` 240-290). -/
structure QueryResult where
  response : String
  intent : QuestionIntent
  entities : List (String × List String)
  is_follow_up : Bool
  timestamp : String
  ai_enabled : Bool
deriving DecidableEq

/-- `AIAgent.process_query` (`ai_agent.py` 240-290).  The `_analysis`
metadata merged into the context only feeds the provider prompt (none of
the modelled readers consult it), so the context is passed through
unchanged; `utcNowIso` is the external `datetime.utcnow().isoformat()`
reading; `ai_enabled` is `self.llm_service.initialized`. -/
def process_query (svc : GeminiServiceState) (out : ProviderOutcomes)
    (message : String) (ctx : SystemContext) (history : List (String × String))
    (utcNowIso : String) : QueryResult :=
  let intent := detect_intent message
  let entities := extract_entities message
  let fu := is_follow_up message
  let resp := GeminiService.chat svc out message ctx history
  let resp2 := enhance_response resp intent ctx
  { response := resp2, intent := intent, entities := entities,
    is_follow_up := fu, timestamp := utcNowIso, ai_enabled := svc.initialized }

theorem append_ne_empty_left (s t : String) (h : s ≠ "") : s ++ t ≠ "" := by
  intro he
  apply h
  have hd := congrArg String.data he
  rw [String.data_append] at hd
  have hs : s.data = [] := (List.append_eq_nil.mp (by simpa using hd)).1
  cases s with
  | mk d =>
    simp only at hs
    exact congrArg String.mk hs

theorem generate_fallback_response_ne_empty (msg : String) (ctx : SystemContext) :
    generate_fallback_response msg ctx ≠ "" := by
  simp only [generate_fallback_response]
  split_ifs <;> (repeat' apply append_ne_empty_left) <;> decide

/-- C1 counterexample.  With an initialized service whose two providers both
fail at runtime, `chat` returns the deterministic fallback text, but
`process_query` reports `ai_enabled = true` (it reports
`llm_service.initialized`, not whether a model produced the text), so the
claim that `ai_enabled` is false whenever both providers fail is refuted. -/
theorem c1_flag_counterexample :
    GeminiService.chat ⟨true, true⟩ ⟨none, none⟩ "hello" ctxNoAlerts []
        = generate_fallback_response "hello" ctxNoAlerts ∧
    (process_query ⟨true, true⟩ ⟨none, none⟩ "hello" ctxNoAlerts [] "t1").ai_enabled
        = true := by
  exact ⟨rfl, rfl⟩

/-- C1 (amended).  Whenever the service is uninitialized or both providers
fail, `chat` returns the non-empty deterministic fallback response built
from the context; the `ai_enabled` flag of the query result equals
`initialized`, so it is false in the uninitialized case but stays true when
an initialized service falls back after runtime provider failures. -/
theorem c1_chat_fallback_amended (svc : GeminiServiceState) (out : ProviderOutcomes)
    (msg : String) (ctx : SystemContext) (hist : List (String × String))
    (nowIso : String)
    (h : svc.initialized = false ∨ (out.gemini = none ∧ out.cerebras = none)) :
    GeminiService.chat svc out msg ctx hist = generate_fallback_response msg ctx ∧
    generate_fallback_response msg ctx ≠ "" ∧
    (process_query svc out msg ctx hist nowIso).ai_enabled = svc.initialized := by
  refine ⟨?_, generate_fallback_response_ne_empty msg ctx, rfl⟩
  unfold GeminiService.chat
  rcases h with hinit | ⟨hg, hc⟩
  · rw [hinit]
    simp
  · rw [hg, hc]
    cases hinitv : svc.initialized <;> cases hkey : svc.hasCerebrasKey <;> simp

/-- Witness for C1 (amended) on an uninitialized service. -/
theorem c1_chat_fallback_amended_witness :
    ((⟨false, false⟩ : GeminiServiceState).initialized = false ∨
      ((⟨none, none⟩ : ProviderOutcomes).gemini = none ∧
        (⟨none, none⟩ : ProviderOutcomes).cerebras = none)) ∧
    (GeminiService.chat ⟨false, false⟩ ⟨none, none⟩ "hi" ctxOneAlert []
        = generate_fallback_response "hi" ctxOneAlert ∧
      generate_fallback_response "hi" ctxOneAlert ≠ "" ∧
      (process_query ⟨false, false⟩ ⟨none, none⟩ "hi" ctxOneAlert [] "t2").ai_enabled
        = (⟨false, false⟩ : GeminiServiceState).initialized) :=
  ⟨Or.inl rfl,
   c1_chat_fallback_amended ⟨false, false⟩ ⟨none, none⟩ "hi" ctxOneAlert [] "t2"
     (Or.inl rfl)⟩

/-! ### Markdown fence stripping — `gemini_service.py` 253-262, 319-327 and
384-392 (the same fragment in `analyze_anomalies`, `get_control_recommendation`
and `generate_energy_insights`):

    text = response.text.strip()
    if text.startswith("```"):
        text = text.split("```")[1]
        if text.startswith("json"):
            text = text[4:]
        text = text.strip()
    data = json.loads(text)

`str.split("```")` is modelled by `splitTicks` (left-to-right,
non-overlapping separator occurrences). -/

def tickChar : Char := Char.ofNat 96

def ticksL : List Char := "```".data

/-- Core of Python `text.split("```")`: walk left to right, cutting at each
separator occurrence; `acc` holds the current chunk reversed. -/
def splitTicksAux : List Char → List Char → List (List Char)
  | acc, c1 :: c2 :: c3 :: rest =>
    if c1 = tickChar ∧ c2 = tickChar ∧ c3 = tickChar then
      acc.reverse :: splitTicksAux [] rest
    else splitTicksAux (c1 :: acc) (c2 :: c3 :: rest)
  | acc, l => [acc.reverse ++ l]

def splitTicks (l : List Char) : List (List Char) := splitTicksAux [] l

/-- Whether a char list contains the separator `` ``` `` as an infix. -/
def hasTriple : List Char → Bool
  | [] => false
  | c :: cs => ticksL.isPrefixOf (c :: cs) || hasTriple cs

/-- The fence-stripping fragment over char lists.  (`split("```")[1]` would
raise in Python only if fewer than 2 chunks existed, which cannot happen
after a positive `startswith` check; `getD` mirrors the defined cases.) -/
def stripFencesL (text0 : List Char) : List Char :=
  let text := stripL text0
  if ticksL.isPrefixOf text then
    let text1 := (splitTicks text).getD 1 []
    let text2 := if ("json".data).isPrefixOf text1 then text1.drop 4 else text1
    stripL text2
  else text

/-- The fence-stripping fragment as it appears in the source, on strings. -/
def stripJsonFences (s : String) : String := ⟨stripFencesL s.data⟩

theorem ticksL_eq : ticksL = [tickChar, tickChar, tickChar] := by decide

theorem hasTriple_cons_ne (c : Char) (l : List Char) (hc : c ≠ tickChar) :
    hasTriple (c :: l) = hasTriple l := by
  have hpre : ticksL.isPrefixOf (c :: l) = false := by
    rw [ticksL_eq]
    simp [List.isPrefixOf]
    intro habs
    exact absurd habs.symm hc
  rw [hasTriple, hpre]
  simp

theorem prefixOf_ticks_concat (c : Char) (l : List Char) (hc : c ≠ tickChar) :
    ticksL.isPrefixOf (l ++ [c]) = ticksL.isPrefixOf l := by
  rcases l with _ | ⟨a, _ | ⟨b, _ | ⟨d, l'⟩⟩⟩ <;>
    simp [ticksL_eq, List.isPrefixOf] <;>
    intro h1 h2 h3 <;>
    exact absurd h3.symm hc

theorem hasTriple_concat_ne (c : Char) (l : List Char) (hc : c ≠ tickChar) :
    hasTriple (l ++ [c]) = hasTriple l := by
  induction l with
  | nil =>
    simp [hasTriple, ticksL_eq, List.isPrefixOf]
  | cons d l ih =>
    have hp := prefixOf_ticks_concat c (d :: l) hc
    rw [List.cons_append] at hp
    show hasTriple (d :: (l ++ [c])) = hasTriple (d :: l)
    rw [hasTriple, hasTriple, ih, hp]

theorem hasTriple_of_prefixOf (l : List Char) (h : ticksL.isPrefixOf l = true) :
    hasTriple l = true := by
  cases l with
  | nil => rw [ticksL_eq] at h; simp [List.isPrefixOf] at h
  | cons c cs => rw [hasTriple, h]; rfl

theorem hasTriple_append_right (l b : List Char) (h : hasTriple l = true) :
    hasTriple (l ++ b) = true := by
  induction l with
  | nil => simp [hasTriple] at h
  | cons c cs ih =>
    rw [hasTriple] at h
    rcases Bool.or_eq_true_iff.mp h with hp | ht
    · have : ticksL.isPrefixOf ((c :: cs) ++ b) = true := by
        rw [prefixOf_iff] at hp ⊢
        obtain ⟨r, hr⟩ := hp
        exact ⟨r ++ b, by rw [← hr, List.append_assoc]⟩
      show hasTriple (c :: (cs ++ b)) = true
      rw [hasTriple]
      have : ticksL.isPrefixOf (c :: (cs ++ b)) = true := this
      rw [this]
      rfl
    · show hasTriple (c :: (cs ++ b)) = true
      rw [hasTriple, ih ht]
      simp

theorem hasTriple_append_left (a l : List Char) (h : hasTriple l = true) :
    hasTriple (a ++ l) = true := by
  induction a with
  | nil => simpa using h
  | cons x a ih =>
    show hasTriple (x :: (a ++ l)) = true
    rw [hasTriple, ih]
    simp

theorem hasTriple_of_infix (l₁ l₂ : List Char) (h : l₁ <:+: l₂)
    (h1 : hasTriple l₁ = true) : hasTriple l₂ = true := by
  obtain ⟨a, b, rfl⟩ := h
  rw [List.append_assoc]
  exact hasTriple_append_left a _ (hasTriple_append_right l₁ b h1)

theorem stripL_infixOf (l : List Char) : stripL l <:+: l := by
  have h1 : dropEndWs l <+: l := by
    have := List.dropWhile_suffix (l := l.reverse) (p := fun c => c.isWhitespace)
    rw [← List.reverse_prefix] at this
    simpa [dropEndWs] using this
  have h2 : stripL l <:+ dropEndWs l := List.dropWhile_suffix _
  obtain ⟨a, ha⟩ := h2
  obtain ⟨b, hb⟩ := h1
  exact ⟨a, b, by rw [ha, hb]⟩

/-- After stripping, a payload free of `` ``` `` still does not start with
the fence marker. -/
theorem stripL_no_ticks (l : List Char) (h : hasTriple l = false) :
    ticksL.isPrefixOf (stripL l) = false := by
  by_contra habs
  have hpre : ticksL.isPrefixOf (stripL l) = true := by
    cases hb : ticksL.isPrefixOf (stripL l)
    · exact absurd hb habs
    · rfl
  have := hasTriple_of_infix _ _ (stripL_infixOf l) (hasTriple_of_prefixOf _ hpre)
  rw [h] at this
  exact Bool.false_ne_true this

theorem splitTicksAux_ticks (acc rest : List Char) :
    splitTicksAux acc (ticksL ++ rest) = acc.reverse :: splitTicksAux [] rest := by
  rw [ticksL_eq]
  show splitTicksAux acc (tickChar :: tickChar :: tickChar :: rest) = _
  rw [splitTicksAux]
  simp

theorem splitTicksAux_free (m : List Char) (acc rest : List Char)
    (hm : hasTriple m = false)
    (hlast : m = [] ∨ m.getLast? ≠ some tickChar) :
    splitTicksAux acc (m ++ ticksL ++ rest) = (acc.reverse ++ m) :: splitTicksAux [] rest := by
  induction m generalizing acc with
  | nil =>
    simpa using splitTicksAux_ticks acc rest
  | cons c m1 ih =>
    have hmtail : hasTriple m1 = false := by
      rw [hasTriple] at hm
      exact (Bool.or_eq_false_iff.mp hm).2
    have hclast : m1 = [] → c ≠ tickChar := by
      intro h0
      subst h0
      rcases hlast with habs | hl
      · exact absurd habs (by simp)
      · simpa using hl
    have hlast3 : m1 ≠ [] → (m1 = [] ∨ m1.getLast? ≠ some tickChar) := by
      intro h0
      right
      rcases hlast with habs | hl
      · exact absurd habs (by simp)
      · rcases m1 with _ | ⟨d, m2⟩
        · exact absurd rfl h0
        · rw [List.getLast?_cons_cons] at hl
          exact hl
    rcases m1 with _ | ⟨d, m2⟩
    · -- m = [c]
      have hc : c ≠ tickChar := hclast rfl
      have htt : (([c] : List Char) ++ ticksL ++ rest) =
          c :: tickChar :: tickChar :: tickChar :: rest := by
        rw [ticksL_eq]
        rfl
      rw [htt, splitTicksAux, if_neg (by simp [hc])]
      have htt2 : (tickChar :: tickChar :: tickChar :: rest) = ticksL ++ rest := by
        rw [ticksL_eq]
        rfl
      rw [htt2, splitTicksAux_ticks]
      simp
    · -- m = c :: d :: m2
      have hstep : splitTicksAux acc ((c :: d :: m2) ++ ticksL ++ rest) =
          splitTicksAux (c :: acc) ((d :: m2) ++ ticksL ++ rest) := by
        rcases m2 with _ | ⟨e, m3⟩
        · have hd : d ≠ tickChar := by
            have h0 := hlast3 (by simp)
            rcases h0 with h0 | h0
            · exact absurd h0 (by simp)
            · simpa using h0
          have htt : (([c, d] : List Char) ++ ticksL ++ rest) =
              c :: d :: tickChar :: (tickChar :: tickChar :: rest) := by
            rw [ticksL_eq]
            rfl
          have htt2 : (([d] : List Char) ++ ticksL ++ rest) =
              d :: tickChar :: (tickChar :: tickChar :: rest) := by
            rw [ticksL_eq]
            rfl
          rw [htt, htt2, splitTicksAux, if_neg (by simp [hd])]
        · have hnt : ¬(c = tickChar ∧ d = tickChar ∧ e = tickChar) := by
            rintro ⟨rfl, rfl, rfl⟩
            rw [hasTriple] at hm
            have hp : ticksL.isPrefixOf
                (tickChar :: tickChar :: tickChar :: m3) = true := by
              rw [ticksL_eq]
              simp [List.isPrefixOf]
            rw [hp] at hm
            simp at hm
          have htt : ((c :: d :: e :: m3) ++ ticksL ++ rest) =
              c :: d :: e :: (m3 ++ ticksL ++ rest) := by
            simp
          have htt2 : ((d :: e :: m3) ++ ticksL ++ rest) =
              d :: e :: (m3 ++ ticksL ++ rest) := by
            simp
          rw [htt, htt2, splitTicksAux, if_neg hnt]
      rw [hstep, ih (c :: acc) hmtail (hlast3 (by simp))]
      simp

theorem dropEndWs_concat_ws (l : List Char) (c : Char) (hc : c.isWhitespace = true) :
    dropEndWs (l ++ [c]) = dropEndWs l := by
  simp [dropEndWs, List.dropWhile, hc]

/-- Stripping undoes a newline added on each side. -/
theorem stripL_wrap_nl (l : List Char) :
    stripL ('\n' :: (l ++ ['\n'])) = stripL l := by
  have hrev : ('\n' :: (l ++ ['\n'])).reverse = '\n' :: (l.reverse ++ ['\n']) := by
    simp
  by_cases hws : (l.reverse.dropWhile (fun c => c.isWhitespace)) = []
  · have h1 : dropEndWs ('\n' :: (l ++ ['\n'])) = [] := by
      simp only [dropEndWs, hrev, List.dropWhile]
      norm_num
      rw [List.dropWhile_append]
      simp [hws, List.dropWhile]
    have h2 : dropEndWs l = [] := by
      simp [dropEndWs, hws]
    simp [stripL, h1, h2]
  · have h1 : dropEndWs ('\n' :: (l ++ ['\n'])) = '\n' :: dropEndWs l := by
      simp only [dropEndWs, hrev, List.dropWhile]
      norm_num
      rw [List.dropWhile_append]
      simp [hws]
    rw [stripL, h1]
    simp only [List.dropWhile]
    norm_num
    rfl

/-- The fenced wrapper `` ```json\n<payload>\n``` `` is untouched by the
outer `strip` (it begins and ends with a backtick). -/
theorem stripL_wrapped (p : List Char) :
    stripL ("```json\n".data ++ (p ++ "\n```".data)) =
      "```json\n".data ++ (p ++ "\n```".data) := by
  have hdata1 : "```json\n".data =
      tickChar :: tickChar :: tickChar :: 'j' :: 's' :: 'o' :: 'n' :: '\n' :: [] := by
    decide
  have hdata2 : "\n```".data = '\n' :: tickChar :: tickChar :: tickChar :: [] := by
    decide
  have hrev : ("```json\n".data ++ (p ++ "\n```".data)).reverse =
      tickChar :: tickChar :: tickChar :: '\n' ::
        (p.reverse ++ ("```json\n".data).reverse) := by
    rw [hdata2]
    simp
  have hend : dropEndWs ("```json\n".data ++ (p ++ "\n```".data)) =
      "```json\n".data ++ (p ++ "\n```".data) := by
    rw [dropEndWs, hrev]
    rw [List.dropWhile_cons_of_neg (by decide)]
    rw [← hrev]
    simp
  rw [stripL, hend, hdata1]
  simp only [List.cons_append, List.nil_append]
  rw [List.dropWhile_cons_of_neg (by decide)]

/-- C6 counterexample.  A JSON payload that itself contains the fence
marker `` ``` `` (legal inside a JSON string, e.g. the document
`"a```b"`) is truncated by the stripping fragment: the wrapped response is
cut at the interior fence and yields `"a` (an unterminated fragment that
`json.loads` rejects), while the unwrapped response strips to the payload
itself, so wrapped and unwrapped responses do not parse identically. -/
theorem c6_fence_counterexample :
    stripJsonFences ("```json\n" ++ "\x22a```b\x22" ++ "\n```") = "\x22a" ∧
    stripJsonFences "\x22a```b\x22" = "\x22a```b\x22" ∧
    stripJsonFences ("```json\n" ++ "\x22a```b\x22" ++ "\n```")
      ≠ stripJsonFences "\x22a```b\x22" := by
  refine ⟨by decide, by decide, by decide⟩

/-- C6 (amended).  For every payload that does not contain the fence marker
`` ``` ``, the provider response wrapped in triple-backtick fences with a
`json` language tag is stripped to exactly the same text as the unwrapped
raw response, hence parses identically. -/
theorem c6_fence_strip_amended (p : String) (h : hasTriple p.data = false) :
    stripJsonFences ("```json\n" ++ p ++ "\n```") = stripJsonFences p := by
  have hdataW : ("```json\n" ++ p ++ "\n```").data =
      "```json\n".data ++ (p.data ++ "\n```".data) := by
    rw [String.data_append, String.data_append, List.append_assoc]
  have hm : hasTriple ('j' :: 's' :: 'o' :: 'n' :: '\n' :: (p.data ++ ['\n'])) = false := by
    rw [hasTriple_cons_ne _ _ (by decide), hasTriple_cons_ne _ _ (by decide),
      hasTriple_cons_ne _ _ (by decide), hasTriple_cons_ne _ _ (by decide),
      hasTriple_cons_ne _ _ (by decide), hasTriple_concat_ne _ _ (by decide)]
    exact h
  have hlast : ('j' :: 's' :: 'o' :: 'n' :: '\n' :: (p.data ++ ['\n'])) = [] ∨
      ('j' :: 's' :: 'o' :: 'n' :: '\n' :: (p.data ++ ['\n'])).getLast?
        ≠ some tickChar := by
    right
    have heq : ('j' :: 's' :: 'o' :: 'n' :: '\n' :: (p.data ++ ['\n']))
        = ('j' :: 's' :: 'o' :: 'n' :: '\n' :: p.data) ++ ['\n'] := by simp
    rw [heq, List.getLast?_concat]
    decide
  -- the wrapped text decomposes as ticks ++ (m ++ ticks ++ []) with m fence-free
  have hdecomp : "```json\n".data ++ (p.data ++ "\n```".data) =
      ticksL ++ (('j' :: 's' :: 'o' :: 'n' :: '\n' :: (p.data ++ ['\n'])) ++ ticksL ++ []) := by
    have h1 : "```json\n".data =
        tickChar :: tickChar :: tickChar :: 'j' :: 's' :: 'o' :: 'n' :: '\n' :: [] := by
      decide
    have h2 : "\n```".data = '\n' :: tickChar :: tickChar :: tickChar :: [] := by
      decide
    rw [h1, h2, ticksL_eq]
    simp
  have hpre : ticksL.isPrefixOf ("```json\n".data ++ (p.data ++ "\n```".data)) = true := by
    rw [hdecomp]
    exact (prefixOf_iff _ _).mpr (List.prefix_append _ _)
  have hsplit : splitTicks ("```json\n".data ++ (p.data ++ "\n```".data)) =
      [[], 'j' :: 's' :: 'o' :: 'n' :: '\n' :: (p.data ++ ['\n']), []] := by
    rw [splitTicks, hdecomp, splitTicksAux_ticks,
      splitTicksAux_free _ _ _ hm hlast]
    simp [splitTicksAux]
  have hjson : ("json".data).isPrefixOf
      ('j' :: 's' :: 'o' :: 'n' :: '\n' :: (p.data ++ ['\n'])) = true := by
    have hj : "json".data = ['j', 's', 'o', 'n'] := by decide
    rw [hj]
    simp [List.isPrefixOf]
  have hLHS : stripFencesL (("```json\n" ++ p ++ "\n```").data) = stripL p.data := by
    rw [hdataW]
    simp only [stripFencesL]
    rw [stripL_wrapped, if_pos hpre, hsplit]
    have hgetD : (([[], 'j' :: 's' :: 'o' :: 'n' :: '\n' :: (p.data ++ ['\n']), []] :
        List (List Char)).getD 1 []) =
        'j' :: 's' :: 'o' :: 'n' :: '\n' :: (p.data ++ ['\n']) := rfl
    rw [hgetD, if_pos hjson]
    have hdrop : ('j' :: 's' :: 'o' :: 'n' :: '\n' :: (p.data ++ ['\n'])).drop 4 =
        '\n' :: (p.data ++ ['\n']) := rfl
    rw [hdrop, stripL_wrap_nl]
  have hRHS : stripFencesL p.data = stripL p.data := by
    simp only [stripFencesL]
    rw [if_neg (by simp [stripL_no_ticks p.data h])]
  show (⟨stripFencesL (("```json\n" ++ p ++ "\n```").data)⟩ : String) = ⟨stripFencesL p.data⟩
  rw [hLHS, hRHS]

/-- Witness for C6 (amended) at the payload `{"a": 1}` (fence-free). -/
theorem c6_fence_strip_amended_witness :
    (hasTriple ("\x7b\x22a\x22: 1\x7d" : String).data = false) ∧
    stripJsonFences ("```json\n" ++ "\x7b\x22a\x22: 1\x7d" ++ "\n```")
      = stripJsonFences "\x7b\x22a\x22: 1\x7d" :=
  ⟨by decide, c6_fence_strip_amended "\x7b\x22a\x22: 1\x7d" (by decide)⟩

/-! ### Control recommendation — `GeminiService.get_control_recommendation`
(`gemini_service.py` 278-332).  `json.loads` on the cleaned text is an
external collaborator, modelled as a `parseJson` oracle returning `none`
exactly when parsing raises. -/

/-- The recommendation dict; `suggestions` appears only in parsed provider
output. -/
structure ControlRec where
  approved : Bool
  reason : String
  warnings : List String
  suggestions : List String
deriving DecidableEq

/-- Outcome of the provider call: `failure` for any exception or missing
response, `text s` for a reply whose text is `s` (possibly empty). -/
inductive ProviderResult where
  | failure
  | text (s : String)
deriving DecidableEq

/-- `GeminiService.get_control_recommendation` (`gemini_service.py`
278-332).  `load_id`, `load_info`, `action` and `recent_alerts` only feed
the provider prompt.  An empty reply text is falsy in Python and falls
through to the final return. -/
def get_control_recommendation (initialized : Bool) (_load_id : Nat)
    (_load_info : List (String × String)) (_action : String)
    (_recent_alerts : List AlertInfo) (res : ProviderResult)
    (parseJson : String → Option ControlRec) : ControlRec :=
  if !initialized then
    ⟨true, "AI not available, allowing action", [], []⟩
  else
    match res with
    | .failure => ⟨true, "Could not process recommendation", [], []⟩
    | .text s =>
      if s = "" then ⟨true, "Could not process recommendation", [], []⟩
      else
        match parseJson (stripJsonFences s) with
        | some d => d
        | none => ⟨true, "Could not process recommendation", [], []⟩

/-- C10.  The control recommendation fails open: whenever the service is
uninitialized, the provider call fails (or returns empty text), or the
provider output does not parse as JSON, the returned recommendation has
`approved = true` rather than an error or a denial. -/
theorem c10_control_fail_open (initialized : Bool) (load_id : Nat)
    (load_info : List (String × String)) (action : String)
    (recent_alerts : List AlertInfo) (res : ProviderResult)
    (parseJson : String → Option ControlRec)
    (h : initialized = false ∨ res = .failure ∨
      (∃ s, res = .text s ∧ (s = "" ∨ parseJson (stripJsonFences s) = none))) :
    (get_control_recommendation initialized load_id load_info action
        recent_alerts res parseJson).approved = true := by
  rcases h with hinit | hfail | ⟨s, rfl, hs⟩
  · rw [hinit]
    rfl
  · rw [hfail]
    cases initialized <;> rfl
  · cases initialized with
    | false => rfl
    | true =>
      rcases hs with rfl | hparse
      · rfl
      · simp only [get_control_recommendation, Bool.not_true, Bool.false_eq_true,
          if_false, hparse]
        split
        · rfl
        · rfl

/-- Witness for C10: initialized service, provider replies with prose that
is not JSON, the parse oracle rejects everything. -/
theorem c10_control_fail_open_witness :
    ((true : Bool) = false ∨ (ProviderResult.text "I cannot decide") = .failure ∨
      (∃ s, (ProviderResult.text "I cannot decide") = .text s ∧
        (s = "" ∨ (fun _ : String => (none : Option ControlRec))
            (stripJsonFences s) = none))) ∧
    (get_control_recommendation true 1 [("name", "AC Heater")] "turn_on" []
        (.text "I cannot decide") (fun _ => none)).approved = true :=
  ⟨Or.inr (Or.inr ⟨"I cannot decide", rfl, Or.inr rfl⟩),
   c10_control_fail_open true 1 [("name", "AC Heater")] "turn_on" []
     (.text "I cannot decide") (fun _ => none)
     (Or.inr (Or.inr ⟨"I cannot decide", rfl, Or.inr rfl⟩))⟩

end SmartHome
